import Mathlib

/-!
Shallow embedding of the sync core of tap-s3-csv (tap_s3_csv/sync.py):
`sync_stream`, `sync_table_file` and `RecordMessageWithSequence`.
External collaborators (the S3 client, the singer library helpers, the
pluggable decoder, the transformer) are modelled as an explicit `Env`
of capabilities; the sync functions return observable traces of
messages emitted, warnings logged, module lookups performed and state
writes, alongside the record count or the propagated fault.
-/

namespace TapS3Csv

/-- A timezone-aware datetime, as integer epoch seconds plus a microsecond
component, ordered lexicographically (the order of datetime comparison). -/
structure Timestamp where
  sec : Int
  micro : Nat
deriving DecidableEq

/-- Boolean total order on timestamps: lexicographic on seconds, then
microseconds. -/
def Timestamp.leb (a b : Timestamp) : Bool :=
  decide (a.sec < b.sec) || (decide (a.sec = b.sec) && decide (a.micro ≤ b.micro))

/-- Strict order on timestamps. -/
def Timestamp.ltb (a b : Timestamp) : Bool :=
  not (Timestamp.leb b a)

/-- Models datetime.isoformat(): an injective textual rendering of the
timestamp (the exact calendar formatting of the datetime library is
external; only injectivity matters to the sync core). -/
def Timestamp.isoformat (a : Timestamp) : String :=
  toString a.sec ++ "." ++ toString a.micro

/-- Models int(datetime.timestamp()): the epoch value sec + micro/1e6
truncated toward zero. -/
def Timestamp.timestampInt (a : Timestamp) : Int :=
  if a.sec < 0 && a.micro != 0 then a.sec + 1 else a.sec

/-- A string-keyed association list modelling a Python dict with its
insertion order; lookup returns the first (unique, for dicts) match. -/
def SDict (α : Type) : Type := List (String × α)

/-- Dict lookup. -/
def SDict.get {α : Type} : SDict α → String → Option α
  | [], _ => none
  | p :: rest, k => if p.1 == k then some p.2 else SDict.get rest k

/-- Models Python dict item assignment d[k] = v: overwrites in place when
the key exists (keeping its position), appends otherwise. -/
def SDict.set {α : Type} : SDict α → String → α → SDict α
  | [], k, v => [(k, v)]
  | p :: rest, k, v => if p.1 == k then (k, v) :: rest else p :: SDict.set rest k v

/-- Models the Python double-splat dict merge: start from `a`, then assign
every entry of `b` in order, so entries of `b` overwrite entries of `a`. -/
def SDict.merge {α : Type} (a b : SDict α) : SDict α :=
  b.foldl (fun acc p => acc.set p.1 p.2) a

/-- JSON-like values appearing in rows and serialized messages. -/
inductive JVal where
  | s : String → JVal
  | i : Int → JVal
  | o : List (String × JVal) → JVal
deriving BEq

/-- A decoded row: field name → value, produced by the decoding capability. -/
abbrev Row := SDict JVal

/-- A fault raised by an external capability. -/
inductive Fault where
  | decodeError : String → Fault
  | transformError : String → Fault
  | readError : String → Fault
deriving DecidableEq

/-- A row iterator: the rows it yields in order, then optionally a fault
raised after the last yielded row (a mid-file decode or storage-read
failure surfaces here, after a prefix of the file's rows came out). -/
structure RowIter where
  rows : List Row
  fault : Option Fault

/-- The slice of a table specification the sync core reads. -/
structure TableSpec where
  table_name : String

/-- The slice of the configuration the sync core reads. -/
structure Config where
  bucket : String
  start_date : String
  encoding_module : Option String

/-- A file descriptor as returned by the S3 listing capability. -/
structure FileDescriptor where
  key : String
  last_modified : Timestamp
deriving DecidableEq

/-- A pluggable decoding capability: get_row_iterator turns a raw byte
stream and a table spec into a row iterator (models singer_encodings.csv
and any override module). -/
structure EncodingModule where
  get_row_iterator : String → TableSpec → RowIter

/-- The external collaborators of the sync core: the S3 listing capability
(fed the modified_since bookmark string), the S3 file-handle capability
(its raw stream, or a storage fault on open), the module registry behind
dynamic import, the default decoder singer_encodings.csv, and the singer
Transformer for the stream's schema and metadata. -/
structure Env where
  get_input_files_for_table : String → List FileDescriptor
  get_file_handle : String → Except Fault String
  modules : String → Option EncodingModule
  default_module : EncodingModule
  transform : Row → Except Fault Row

/-- Modelled from the spec: the reserved provenance field for the source
bucket, a constant of the repository's s3 module (not included in src). -/
def SDC_SOURCE_BUCKET_COLUMN : String := "_sdc_source_bucket"

/-- Modelled from the spec: the reserved provenance field for the source
file key, a constant of the repository's s3 module (not included in src). -/
def SDC_SOURCE_FILE_COLUMN : String := "_sdc_source_file"

/-- Modelled from the spec: the reserved provenance field for the 1-based
line number, a constant of the repository's s3 module (not included in src). -/
def SDC_SOURCE_LINENO_COLUMN : String := "_sdc_source_lineno"

/-- Models singer.RecordMessage restricted to the fields this tap sets. -/
structure RecordMessage where
  stream : String
  record : Row

/-- Models singer.RecordMessage.asdict with version and time_extracted
unset, as in this tap. -/
def RecordMessage.asdict (m : RecordMessage) : SDict JVal :=
  [("type", JVal.s "RECORD"), ("stream", JVal.s m.stream), ("record", JVal.o m.record)]

/-- The wrapper class adding the last_modified timestamp as the sequence. -/
structure RecordMessageWithSequence where
  message : RecordMessage
  last_modified : Int

/-- Models RecordMessageWithSequence.__init__: stores
int(last_modified.timestamp()). -/
def RecordMessageWithSequence.make (message : RecordMessage)
    (last_modified : Timestamp) : RecordMessageWithSequence :=
  { message := message, last_modified := last_modified.timestampInt }

/-- Models RecordMessageWithSequence.asdict: serialize the inner message,
then assign result["sequence"] on the resulting dict. -/
def RecordMessageWithSequence.asdict (w : RecordMessageWithSequence) : SDict JVal :=
  (w.message.asdict).set "sequence" (JVal.i w.last_modified)

/-- The custom_columns dict built in sync_table_file for the row at
zero-based index n (records_synced = n when the row is handled). -/
def customColumns (bucket s3_path : String) (n : Nat) : Row :=
  [(SDC_SOURCE_BUCKET_COLUMN, JVal.s bucket),
   (SDC_SOURCE_FILE_COLUMN, JVal.s s3_path),
   (SDC_SOURCE_LINENO_COLUMN, JVal.i (Int.ofNat n + 2))]

/-- The merged record handed to the transformer: the decoded row
double-splat-merged with custom_columns, custom columns last. -/
def enrichRow (bucket s3_path : String) (n : Nat) (row : Row) : Row :=
  SDict.merge row (customColumns bucket s3_path n)

/-- Observable trace of one sync_table_file call: warnings logged, the
module lookups performed, the records handed to the transformer, the
serialized messages written, and records_synced or the propagated fault. -/
structure FileOut where
  warnings : List String
  lookups : List String
  transformInputs : List Row
  messages : List (SDict JVal)
  result : Except Fault Nat

/-- The decoder-resolution step of sync_table_file: default to
singer_encodings.csv; when the configuration names a module, import it,
falling back to the default with a warning when the import fails.
Returns the chosen module, the warnings logged and the lookups made. -/
def resolveEncodingModule (env : Env) (config : Config) :
    EncodingModule × List String × List String :=
  match config.encoding_module with
  | none => (env.default_module, [], [])
  | some name =>
    match env.modules name with
    | some m => (m, [], [name])
    | none =>
      (env.default_module,
       ["Failed to load encoding module [" ++ name ++ "]. Defaulting to [singer_encodings.csv]"],
       [name])

/-- The per-row loop of sync_table_file over the yielded rows, carrying
records_synced: enrich with custom columns, transform, wrap with the
sequence and emit; a transform fault aborts the loop and propagates.
Returns the transform inputs, the emitted messages, and the count or
fault. -/
def syncRows (env : Env) (bucket s3_path table_name : String)
    (last_modified : Timestamp) :
    List Row → Nat → List Row × List (SDict JVal) × Except Fault Nat
  | [], n => ([], [], Except.ok n)
  | row :: rest, n =>
    let r := enrichRow bucket s3_path n row
    match env.transform r with
    | Except.error f => ([r], [], Except.error f)
    | Except.ok to_write =>
      let msg := (RecordMessageWithSequence.make
        { stream := table_name, record := to_write } last_modified).asdict
      let out := syncRows env bucket s3_path table_name last_modified rest (n + 1)
      (r :: out.1, msg :: out.2.1, out.2.2)

/-- Embedding of sync_table_file: open the file handle (a storage fault on
open propagates before anything else), resolve the decoding module, obtain
the row iterator and run the per-row loop; a fault raised by the iterator
after its last yielded row propagates after those rows were emitted. -/
def sync_table_file (env : Env) (config : Config) (s3_path : String)
    (table_spec : TableSpec) (last_modified : Timestamp) : FileOut :=
  match env.get_file_handle s3_path with
  | Except.error f =>
    { warnings := [], lookups := [], transformInputs := [], messages := [],
      result := Except.error f }
  | Except.ok raw_stream =>
    let resolved := resolveEncodingModule env config
    let iter := resolved.1.get_row_iterator raw_stream table_spec
    let out := syncRows env config.bucket s3_path table_spec.table_name
      last_modified iter.rows 0
    { warnings := resolved.2.1, lookups := resolved.2.2,
      transformInputs := out.1, messages := out.2.1,
      result :=
        match out.2.2 with
        | Except.error f => Except.error f
        | Except.ok n =>
          match iter.fault with
          | some f => Except.error f
          | none => Except.ok n }

/-- Models the singer state object: table name → bookmark key → value. -/
abbrev SState := SDict (SDict String)

/-- Models singer.get_bookmark. -/
def get_bookmark (state : SState) (table key : String) : Option String :=
  (state.get table).bind (fun d => d.get key)

/-- Models singer.write_bookmark: the state with the bookmark set. -/
def write_bookmark (state : SState) (table key value : String) : SState :=
  match state.get table with
  | none => state.set table [(key, value)]
  | some d => state.set table (d.set key value)

/-- Observable trace of one sync_stream call: the files whose processing
started, in order; warnings, lookups and messages concatenated across
files; every state object passed to singer.write_state, in order; the
final in-memory state; and the total record count or the propagated
fault. -/
structure StreamOut where
  processed : List FileDescriptor
  warnings : List String
  lookups : List String
  messages : List (SDict JVal)
  stateWrites : List SState
  finalState : SState
  result : Except Fault Nat

/-- The sort key of sync_stream: compare files by last_modified. -/
def fileLe (a b : FileDescriptor) : Bool :=
  a.last_modified.leb b.last_modified

/-- The per-file loop of sync_stream over the sorted file list, carrying
records_streamed and the state: a file fault propagates at once, without
writing that file's bookmark; on success the bookmark is written and the
state persisted before the next file. -/
def syncFiles (env : Env) (config : Config) (table_spec : TableSpec) :
    List FileDescriptor → SState → Nat → StreamOut
  | [], state, n =>
    { processed := [], warnings := [], lookups := [], messages := [],
      stateWrites := [], finalState := state, result := Except.ok n }
  | f :: rest, state, n =>
    let out := sync_table_file env config f.key table_spec f.last_modified
    match out.result with
    | Except.error e =>
      { processed := [f], warnings := out.warnings, lookups := out.lookups,
        messages := out.messages, stateWrites := [], finalState := state,
        result := Except.error e }
    | Except.ok k =>
      let state2 := write_bookmark state table_spec.table_name "modified_since"
        f.last_modified.isoformat
      let restOut := syncFiles env config table_spec rest state2 (n + k)
      { processed := f :: restOut.processed,
        warnings := out.warnings ++ restOut.warnings,
        lookups := out.lookups ++ restOut.lookups,
        messages := out.messages ++ restOut.messages,
        stateWrites := state2 :: restOut.stateWrites,
        finalState := restOut.finalState,
        result := restOut.result }

/-- The file listing sync_stream works from: the selector called with the
modified_since bookmark, defaulting to the configured start_date. -/
def inputFiles (env : Env) (config : Config) (state : SState)
    (table_spec : TableSpec) : List FileDescriptor :=
  env.get_input_files_for_table
    ((get_bookmark state table_spec.table_name "modified_since").getD config.start_date)

/-- Embedding of sync_stream: read the bookmark (or start_date), list the
files, sort them ascending by last_modified with a stable sort, then run
the per-file loop from record count 0. -/
def sync_stream (env : Env) (config : Config) (state : SState)
    (table_spec : TableSpec) : StreamOut :=
  syncFiles env config table_spec
    ((inputFiles env config state table_spec).mergeSort fileLe) state 0

/-- Shorthand: the result of syncing one listed file. -/
def fres (env : Env) (config : Config) (table_spec : TableSpec)
    (f : FileDescriptor) : Except Fault Nat :=
  (sync_table_file env config f.key table_spec f.last_modified).result

/-- Shorthand: whether syncing one listed file completes without fault. -/
def okf (env : Env) (config : Config) (table_spec : TableSpec)
    (f : FileDescriptor) : Bool :=
  match fres env config table_spec f with
  | Except.ok _ => true
  | Except.error _ => false

/-- Shorthand: the messages emitted while syncing one listed file. -/
def fmsgs (env : Env) (config : Config) (table_spec : TableSpec)
    (f : FileDescriptor) : List (SDict JVal) :=
  (sync_table_file env config f.key table_spec f.last_modified).messages

/-- One watermark commit: write the file's last_modified as the
modified_since bookmark of the table. -/
def bookmarkStep (table_name : String) (st : SState) (f : FileDescriptor) : SState :=
  write_bookmark st table_name "modified_since" f.last_modified.isoformat

/-- The successive states passed to singer.write_state while committing a
list of files in order. -/
def bookmarkTrail (table_name : String) : SState → List FileDescriptor → List SState
  | _, [] => []
  | st, f :: rest =>
    bookmarkStep table_name st f ::
      bookmarkTrail table_name (bookmarkStep table_name st f) rest

/-- A demonstration decoder used by concrete runs: one row per file, whose
single field holds the raw stream. -/
def demoModule : EncodingModule :=
  { get_row_iterator := fun raw _ =>
      { rows := [[("a", JVal.s raw)]], fault := none } }

/-- A demonstration environment used by concrete runs: a fixed file
listing, file handles that always open, no importable modules, the
demonstration decoder as default, and an identity transformer. -/
def demoEnv (files : List FileDescriptor) : Env :=
  { get_input_files_for_table := fun _ => files,
    get_file_handle := fun k => Except.ok k,
    modules := fun _ => none,
    default_module := demoModule,
    transform := fun r => Except.ok r }

/- ## Order lemmas for the sort key -/

theorem Timestamp.leb_refl (a : Timestamp) : a.leb a = true := by
  simp [Timestamp.leb]

theorem fileLe_total (a b : FileDescriptor) : (fileLe a b || fileLe b a) = true := by
  simp only [fileLe, Timestamp.leb, Bool.or_eq_true, Bool.and_eq_true, decide_eq_true_eq]
  omega

theorem fileLe_trans (a b c : FileDescriptor) :
    fileLe a b → fileLe b c → fileLe a c := by
  simp only [fileLe, Timestamp.leb, Bool.or_eq_true, Bool.and_eq_true, decide_eq_true_eq]
  omega

theorem Timestamp.leb_of_ltb {a b : Timestamp} (h : a.ltb b = true) : a.leb b = true := by
  simp only [Timestamp.ltb, Timestamp.leb, Bool.not_eq_true', Bool.or_eq_false_iff,
    Bool.and_eq_false_iff, Bool.or_eq_true, Bool.and_eq_true, decide_eq_true_eq,
    decide_eq_false_iff_not] at h ⊢
  omega

/- ## Dict and bookmark lemmas -/

theorem SDict.get_set {α : Type} (d : SDict α) (k k' : String) (v : α) :
    (d.set k v).get k' = if k' = k then some v else d.get k' := by
  induction d with
  | nil =>
    simp only [SDict.set, SDict.get, beq_iff_eq]
    by_cases h : k' = k
    · simp [h]
    · simp [h, Ne.symm h]
  | cons p rest ih =>
    simp only [SDict.set, beq_iff_eq]
    by_cases h : p.1 = k
    · simp only [if_pos h, SDict.get, beq_iff_eq]
      by_cases h' : k' = k
      · simp [h, h', h.trans h'.symm]
      · have hne : ¬ p.1 = k' := fun hh => h' (hh.symm.trans h)
        simp [h', hne, Ne.symm h']
    · simp only [if_neg h, SDict.get, beq_iff_eq, ih]
      by_cases h' : p.1 = k'
      · have : ¬ k' = k := fun hh => h (h'.trans hh)
        simp [h', this]
      · simp [h']

theorem SDict.get_set_self {α : Type} (d : SDict α) (k : String) (v : α) :
    (d.set k v).get k = some v := by
  simp [SDict.get_set]

theorem SDict.get_set_ne {α : Type} (d : SDict α) (k k' : String) (v : α)
    (h : k' ≠ k) : (d.set k v).get k' = d.get k' := by
  simp [SDict.get_set, h]

theorem get_bookmark_write_self (state : SState) (t k v : String) :
    get_bookmark (write_bookmark state t k v) t k = some v := by
  unfold write_bookmark get_bookmark
  cases h : SDict.get state t with
  | none => simp [SDict.get_set_self, SDict.get]
  | some d => simp [SDict.get_set_self]

theorem get_bookmark_write_other (state : SState) (t k v t' k' : String)
    (h : t' ≠ t ∨ k' ≠ k) :
    get_bookmark (write_bookmark state t k v) t' k' = get_bookmark state t' k' := by
  unfold write_bookmark get_bookmark
  by_cases ht : t' = t
  · have hk : k' ≠ k := by
      rcases h with h | h
      · exact absurd ht h
      · exact h
    cases hst : SDict.get state t with
    | none =>
      rw [ht]
      simp [SDict.get_set_self, SDict.get, Ne.symm hk, hst]
    | some d =>
      rw [ht]
      simp [SDict.get_set_self, SDict.get_set_ne _ _ _ _ hk, hst]
  · cases hst : SDict.get state t with
    | none => simp [SDict.get_set_ne _ _ _ _ ht]
    | some d => simp [SDict.get_set_ne _ _ _ _ ht]

/- ## Unfolding lemmas for the per-file loop -/

theorem syncFiles_nil (env : Env) (config : Config) (table_spec : TableSpec)
    (state : SState) (n : Nat) :
    syncFiles env config table_spec [] state n =
      { processed := [], warnings := [], lookups := [], messages := [],
        stateWrites := [], finalState := state, result := Except.ok n } := rfl

theorem syncFiles_cons_error (env : Env) (config : Config) (table_spec : TableSpec)
    (f : FileDescriptor) (rest : List FileDescriptor) (state : SState) (n : Nat)
    (e : Fault) (h : fres env config table_spec f = Except.error e) :
    syncFiles env config table_spec (f :: rest) state n =
      { processed := [f],
        warnings := (sync_table_file env config f.key table_spec f.last_modified).warnings,
        lookups := (sync_table_file env config f.key table_spec f.last_modified).lookups,
        messages := fmsgs env config table_spec f,
        stateWrites := [], finalState := state, result := Except.error e } := by
  have h' : (sync_table_file env config f.key table_spec f.last_modified).result
      = Except.error e := h
  simp [syncFiles, h', fmsgs]

theorem syncFiles_cons_ok (env : Env) (config : Config) (table_spec : TableSpec)
    (f : FileDescriptor) (rest : List FileDescriptor) (state : SState) (n : Nat)
    (k : Nat) (h : fres env config table_spec f = Except.ok k) :
    syncFiles env config table_spec (f :: rest) state n =
      { processed := f :: (syncFiles env config table_spec rest
          (bookmarkStep table_spec.table_name state f) (n + k)).processed,
        warnings := (sync_table_file env config f.key table_spec f.last_modified).warnings
          ++ (syncFiles env config table_spec rest
              (bookmarkStep table_spec.table_name state f) (n + k)).warnings,
        lookups := (sync_table_file env config f.key table_spec f.last_modified).lookups
          ++ (syncFiles env config table_spec rest
              (bookmarkStep table_spec.table_name state f) (n + k)).lookups,
        messages := fmsgs env config table_spec f
          ++ (syncFiles env config table_spec rest
              (bookmarkStep table_spec.table_name state f) (n + k)).messages,
        stateWrites := bookmarkStep table_spec.table_name state f
          :: (syncFiles env config table_spec rest
              (bookmarkStep table_spec.table_name state f) (n + k)).stateWrites,
        finalState := (syncFiles env config table_spec rest
          (bookmarkStep table_spec.table_name state f) (n + k)).finalState,
        result := (syncFiles env config table_spec rest
          (bookmarkStep table_spec.table_name state f) (n + k)).result } := by
  have h' : (sync_table_file env config f.key table_spec f.last_modified).result
      = Except.ok k := h
  simp [syncFiles, h', fmsgs, bookmarkStep]

theorem okf_true (env : Env) (config : Config) (table_spec : TableSpec)
    (f : FileDescriptor) (k : Nat) (h : fres env config table_spec f = Except.ok k) :
    okf env config table_spec f = true := by
  simp [okf, h]

theorem okf_false (env : Env) (config : Config) (table_spec : TableSpec)
    (f : FileDescriptor) (e : Fault)
    (h : fres env config table_spec f = Except.error e) :
    okf env config table_spec f = false := by
  simp [okf, h]

/- ## Structural lemmas for the per-file loop -/

theorem syncFiles_finalState (env : Env) (config : Config) (table_spec : TableSpec) :
    ∀ (files : List FileDescriptor) (state : SState) (n : Nat),
    (syncFiles env config table_spec files state n).finalState =
      List.foldl (bookmarkStep table_spec.table_name) state
        (files.takeWhile (okf env config table_spec))
  | [], state, n => by simp [syncFiles_nil]
  | f :: rest, state, n => by
    cases hok : fres env config table_spec f with
    | error e =>
      rw [syncFiles_cons_error env config table_spec f rest state n e hok]
      simp [List.takeWhile_cons, okf_false env config table_spec f e hok]
    | ok k =>
      rw [syncFiles_cons_ok env config table_spec f rest state n k hok]
      simp only [List.takeWhile_cons, okf_true env config table_spec f k hok,
        if_true, List.foldl_cons]
      exact syncFiles_finalState env config table_spec rest _ _

theorem syncFiles_stateWrites (env : Env) (config : Config) (table_spec : TableSpec) :
    ∀ (files : List FileDescriptor) (state : SState) (n : Nat),
    (syncFiles env config table_spec files state n).stateWrites =
      bookmarkTrail table_spec.table_name state
        (files.takeWhile (okf env config table_spec))
  | [], state, n => by simp [syncFiles_nil, bookmarkTrail]
  | f :: rest, state, n => by
    cases hok : fres env config table_spec f with
    | error e =>
      rw [syncFiles_cons_error env config table_spec f rest state n e hok]
      simp [List.takeWhile_cons, okf_false env config table_spec f e hok, bookmarkTrail]
    | ok k =>
      rw [syncFiles_cons_ok env config table_spec f rest state n k hok]
      simp only [List.takeWhile_cons, okf_true env config table_spec f k hok,
        if_true, bookmarkTrail]
      exact congrArg _ (syncFiles_stateWrites env config table_spec rest _ _)

theorem syncFiles_processed_app (env : Env) (config : Config) (table_spec : TableSpec) :
    ∀ (files : List FileDescriptor) (state : SState) (n : Nat),
    ∃ rest2, files = (syncFiles env config table_spec files state n).processed ++ rest2
  | [], state, n => ⟨[], by simp [syncFiles_nil]⟩
  | f :: rest, state, n => by
    cases hok : fres env config table_spec f with
    | error e =>
      rw [syncFiles_cons_error env config table_spec f rest state n e hok]
      exact ⟨rest, rfl⟩
    | ok k =>
      rw [syncFiles_cons_ok env config table_spec f rest state n k hok]
      obtain ⟨r2, hr2⟩ := syncFiles_processed_app env config table_spec rest
        (bookmarkStep table_spec.table_name state f) (n + k)
      exact ⟨r2, by simpa using hr2⟩

theorem syncFiles_ok (env : Env) (config : Config) (table_spec : TableSpec) :
    ∀ (files : List FileDescriptor) (state : SState) (n m : Nat),
    (syncFiles env config table_spec files state n).result = Except.ok m →
    (syncFiles env config table_spec files state n).processed = files ∧
      files.takeWhile (okf env config table_spec) = files
  | [], state, n, m => fun _ => by simp [syncFiles_nil]
  | f :: rest, state, n, m => by
    cases hok : fres env config table_spec f with
    | error e =>
      rw [syncFiles_cons_error env config table_spec f rest state n e hok]
      intro h
      exact absurd h (by simp)
    | ok k =>
      rw [syncFiles_cons_ok env config table_spec f rest state n k hok]
      intro h
      obtain ⟨h1, h2⟩ := syncFiles_ok env config table_spec rest
        (bookmarkStep table_spec.table_name state f) (n + k) m h
      refine ⟨by simp [h1], ?_⟩
      simp [List.takeWhile_cons, okf_true env config table_spec f k hok, h2]

theorem syncFiles_error (env : Env) (config : Config) (table_spec : TableSpec) :
    ∀ (files : List FileDescriptor) (state : SState) (n : Nat),
    files.all (okf env config table_spec) = false →
    ∃ fbad e,
      files.find? (fun f => not (okf env config table_spec f)) = some fbad ∧
      fres env config table_spec fbad = Except.error e ∧
      (syncFiles env config table_spec files state n).result = Except.error e ∧
      (syncFiles env config table_spec files state n).messages =
        ((files.takeWhile (okf env config table_spec)).map
          (fmsgs env config table_spec)).flatten
          ++ fmsgs env config table_spec fbad
  | [], state, n => by simp
  | f :: rest, state, n => by
    intro hall
    cases hok : fres env config table_spec f with
    | error e =>
      rw [syncFiles_cons_error env config table_spec f rest state n e hok]
      refine ⟨f, e, ?_, hok, rfl, ?_⟩
      · simp [List.find?_cons, okf_false env config table_spec f e hok]
      · simp [List.takeWhile_cons, okf_false env config table_spec f e hok]
    | ok k =>
      have hT := okf_true env config table_spec f k hok
      have hall' : rest.all (okf env config table_spec) = false := by
        simpa [List.all_cons, hT] using hall
      rw [syncFiles_cons_ok env config table_spec f rest state n k hok]
      obtain ⟨fbad, e, hfind, hres, hresult, hmsgs⟩ :=
        syncFiles_error env config table_spec rest
          (bookmarkStep table_spec.table_name state f) (n + k) hall'
      refine ⟨fbad, e, ?_, hres, hresult, ?_⟩
      · simp [List.find?_cons, hT, hfind]
      · simp [List.takeWhile_cons, hT, hmsgs]

theorem sync_table_file_lookups (env : Env) (config : Config) (s3_path : String)
    (table_spec : TableSpec) (lm : Timestamp) (name raw : String)
    (hname : config.encoding_module = some name)
    (hopen : env.get_file_handle s3_path = Except.ok raw) :
    (sync_table_file env config s3_path table_spec lm).lookups = [name] := by
  unfold sync_table_file
  rw [hopen]
  cases hm : env.modules name <;> simp [resolveEncodingModule, hname, hm]

theorem syncFiles_lookups (env : Env) (config : Config) (table_spec : TableSpec)
    (name : String) (hname : config.encoding_module = some name)
    (hopen : ∀ key, ∃ raw, env.get_file_handle key = Except.ok raw) :
    ∀ (files : List FileDescriptor) (state : SState) (n : Nat),
    (syncFiles env config table_spec files state n).lookups =
      (syncFiles env config table_spec files state n).processed.map (fun _ => name)
  | [], state, n => by simp [syncFiles_nil]
  | f :: rest, state, n => by
    obtain ⟨raw, hraw⟩ := hopen f.key
    cases hok : fres env config table_spec f with
    | error e =>
      rw [syncFiles_cons_error env config table_spec f rest state n e hok]
      simp [sync_table_file_lookups env config f.key table_spec f.last_modified
        name raw hname hraw]
    | ok k =>
      rw [syncFiles_cons_ok env config table_spec f rest state n k hok]
      simp [sync_table_file_lookups env config f.key table_spec f.last_modified
          name raw hname hraw,
        syncFiles_lookups env config table_spec name hname hopen rest
          (bookmarkStep table_spec.table_name state f) (n + k)]

/- ## Serialization lemmas -/

theorem asdict_make (t : String) (r : Row) (lm : Timestamp) :
    (RecordMessageWithSequence.make { stream := t, record := r } lm).asdict =
      [("type", JVal.s "RECORD"), ("stream", JVal.s t),
       ("record", JVal.o r), ("sequence", JVal.i lm.timestampInt)] := rfl

theorem get_sequence_asdict (t : String) (r : Row) (lm : Timestamp) :
    SDict.get ((RecordMessageWithSequence.make { stream := t, record := r } lm).asdict)
      "sequence" = some (JVal.i lm.timestampInt) := rfl

/- ## Per-row loop lemmas -/

theorem syncRows_messages (env : Env) (bucket s3_path table_name : String)
    (lm : Timestamp) :
    ∀ (rows : List Row) (n : Nat) (m : SDict JVal),
      m ∈ (syncRows env bucket s3_path table_name lm rows n).2.1 →
      ∃ tw : Row,
        m = (RecordMessageWithSequence.make { stream := table_name, record := tw } lm).asdict
  | [], n, m => by simp [syncRows]
  | row :: rest, n, m => by
    simp only [syncRows]
    cases ht : env.transform (enrichRow bucket s3_path n row) with
    | error f => simp
    | ok tw =>
      intro hm
      rcases List.mem_cons.mp hm with h | h
      · exact ⟨tw, h⟩
      · exact syncRows_messages env bucket s3_path table_name lm rest (n + 1) m h

theorem syncRows_inputs (env : Env) (bucket s3_path table_name : String)
    (lm : Timestamp) :
    ∀ (rows : List Row) (n i : Nat) (r : Row),
      ((syncRows env bucket s3_path table_name lm rows n).1)[i]? = some r →
      ∃ row, rows[i]? = some row ∧ r = enrichRow bucket s3_path (n + i) row
  | [], n, i, r => by simp [syncRows]
  | row :: rest, n, i, r => by
    simp only [syncRows]
    cases ht : env.transform (enrichRow bucket s3_path n row) with
    | error f =>
      cases i with
      | zero => intro h; exact ⟨row, by simp, by simpa using h.symm⟩
      | succ j => intro h; simp at h
    | ok tw =>
      cases i with
      | zero => intro h; exact ⟨row, by simp, by simpa using h.symm⟩
      | succ j =>
        intro h
        simp only [List.getElem?_cons_succ] at h ⊢
        obtain ⟨row', hrow', hr⟩ :=
          syncRows_inputs env bucket s3_path table_name lm rest (n + 1) j r h
        refine ⟨row', hrow', ?_⟩
        rw [hr]
        congr 1
        omega

/- ## Enrichment lemmas -/

theorem enrichRow_get_bucket (bucket s3_path : String) (n : Nat) (row : Row) :
    SDict.get (enrichRow bucket s3_path n row) SDC_SOURCE_BUCKET_COLUMN =
      some (JVal.s bucket) := by
  unfold enrichRow customColumns SDict.merge
  simp only [List.foldl_cons, List.foldl_nil]
  rw [SDict.get_set_ne _ _ _ _ (by decide),
    SDict.get_set_ne _ _ _ _ (by decide), SDict.get_set_self]

theorem enrichRow_get_fileKey (bucket s3_path : String) (n : Nat) (row : Row) :
    SDict.get (enrichRow bucket s3_path n row) SDC_SOURCE_FILE_COLUMN =
      some (JVal.s s3_path) := by
  unfold enrichRow customColumns SDict.merge
  simp only [List.foldl_cons, List.foldl_nil]
  rw [SDict.get_set_ne _ _ _ _ (by decide), SDict.get_set_self]

theorem enrichRow_get_lineno (bucket s3_path : String) (n : Nat) (row : Row) :
    SDict.get (enrichRow bucket s3_path n row) SDC_SOURCE_LINENO_COLUMN =
      some (JVal.i (Int.ofNat n + 2)) := by
  unfold enrichRow customColumns SDict.merge
  simp only [List.foldl_cons, List.foldl_nil]
  exact SDict.get_set_self _ _ _

/- ## Bookmark fold lemmas -/

theorem foldl_bookmark_getLast (table_name : String) :
    ∀ (files : List FileDescriptor) (f : FileDescriptor) (state : SState),
    files.getLast? = some f →
    get_bookmark (List.foldl (bookmarkStep table_name) state files)
      table_name "modified_since" = some f.last_modified.isoformat
  | [], f, state => by simp
  | [g], f, state => by
    intro h
    simp only [List.getLast?_singleton, Option.some_inj] at h
    rw [← h]
    simpa [bookmarkStep] using get_bookmark_write_self state table_name
      "modified_since" g.last_modified.isoformat
  | g :: g' :: rest, f, state => by
    intro h
    rw [List.foldl_cons]
    exact foldl_bookmark_getLast table_name (g' :: rest) f _ (by simpa using h)

theorem foldl_bookmark_frame (table_name : String) :
    ∀ (files : List FileDescriptor) (state : SState) (t' k' : String),
    t' ≠ table_name ∨ k' ≠ "modified_since" →
    get_bookmark (List.foldl (bookmarkStep table_name) state files) t' k' =
      get_bookmark state t' k'
  | [], state, t', k' => fun _ => rfl
  | f :: rest, state, t', k' => by
    intro h
    rw [List.foldl_cons]
    rw [foldl_bookmark_frame table_name rest _ t' k' h]
    exact get_bookmark_write_other state table_name "modified_since"
      f.last_modified.isoformat t' k' h

/- ## Concrete fixtures for closed runs -/

/-- A demonstration timestamp, epoch second 100. -/
def tsA : Timestamp := { sec := 100, micro := 0 }

/-- A demonstration timestamp, epoch second 200. -/
def tsB : Timestamp := { sec := 200, micro := 0 }

/-- A demonstration file modified at tsA. -/
def fileA : FileDescriptor := { key := "a.csv", last_modified := tsA }

/-- A demonstration file modified at tsB. -/
def fileB : FileDescriptor := { key := "b.csv", last_modified := tsB }

/-- A demonstration configuration with no encoding_module override. -/
def demoConfig : Config :=
  { bucket := "bkt", start_date := "0.0", encoding_module := none }

/-- A demonstration table specification. -/
def demoSpec : TableSpec := { table_name := "tbl" }

theorem sync_stream_demoEnv (files : List FileDescriptor) (config : Config)
    (state : SState) (table_spec : TableSpec) :
    sync_stream (demoEnv files) config state table_spec =
      syncFiles (demoEnv files) config table_spec (files.mergeSort fileLe) state 0 := rfl

theorem mergeSortAB :
    ([fileA, fileB] : List FileDescriptor).mergeSort fileLe = [fileA, fileB] :=
  List.mergeSort_of_sorted (by decide)

/-- A demonstration decoder that yields one row and then raises a decode
fault mid-file. -/
def demoFaultyModule : EncodingModule :=
  { get_row_iterator := fun raw _ =>
      { rows := [[("a", JVal.s raw)]], fault := some (Fault.decodeError "bad row") } }

/-- A demonstration environment whose decoder faults after one row. -/
def demoFaultyEnv (files : List FileDescriptor) : Env :=
  { get_input_files_for_table := fun _ => files,
    get_file_handle := fun k => Except.ok k,
    modules := fun _ => none,
    default_module := demoFaultyModule,
    transform := fun r => Except.ok r }

/-- A demonstration configuration naming an unknown encoding_module. -/
def demoConfigBadMod : Config :=
  { bucket := "bkt", start_date := "0.0", encoding_module := some "nope" }

/- ## Claim theorems -/

/-- C1: for every file set returned by the Selector, the per-table sync
processes files in non-decreasing last_modified order: the sequence of
files whose processing starts is an initial segment of the stable merge
sort of the listing by last_modified, hence pairwise non-decreasing; on a
successful sync it is exactly that sorted listing; and the sort is stable,
so any pair already in non-decreasing order in the listing (in particular
any pair with equal last_modified) keeps its relative order, making the
emission order reproducible across runs. -/
theorem C1_files_processed_sorted_stably (env : Env) (config : Config)
    (state : SState) (table_spec : TableSpec) :
    List.Chain' (fun a b => fileLe a b = true)
      (sync_stream env config state table_spec).processed
    ∧ (∃ rest2, (inputFiles env config state table_spec).mergeSort fileLe =
        (sync_stream env config state table_spec).processed ++ rest2)
    ∧ (∀ m, (sync_stream env config state table_spec).result = Except.ok m →
        (sync_stream env config state table_spec).processed =
          (inputFiles env config state table_spec).mergeSort fileLe)
    ∧ (∀ a b, [a, b].Sublist (inputFiles env config state table_spec) →
        fileLe a b = true →
        [a, b].Sublist ((inputFiles env config state table_spec).mergeSort fileLe)) := by
  have hss : sync_stream env config state table_spec =
      syncFiles env config table_spec
        ((inputFiles env config state table_spec).mergeSort fileLe) state 0 := rfl
  have hsorted := List.sorted_mergeSort fileLe_trans fileLe_total
    (inputFiles env config state table_spec)
  obtain ⟨rest2, hpre⟩ := syncFiles_processed_app env config table_spec
    ((inputFiles env config state table_spec).mergeSort fileLe) state 0
  rw [hss]
  refine ⟨?_, ⟨rest2, hpre⟩, ?_, ?_⟩
  · have hsub : (syncFiles env config table_spec
        ((inputFiles env config state table_spec).mergeSort fileLe) state 0).processed.Sublist
        ((inputFiles env config state table_spec).mergeSort fileLe) := by
      have hal := List.sublist_append_left (syncFiles env config table_spec
        ((inputFiles env config state table_spec).mergeSort fileLe) state 0).processed rest2
      rwa [← hpre] at hal
    exact (List.Pairwise.sublist hsub hsorted).chain'
  · intro m hm
    exact (syncFiles_ok env config table_spec _ state 0 m hm).1
  · intro a b hab hle
    exact List.pair_sublist_mergeSort fileLe_trans fileLe_total hle hab

/-- C1 witness: a concrete two-file run in which the sync succeeds and the
processed sequence is the sorted listing. -/
theorem C1_witness :
    (sync_stream (demoEnv [fileA, fileB]) demoConfig [] demoSpec).processed =
      (inputFiles (demoEnv [fileA, fileB]) demoConfig [] demoSpec).mergeSort fileLe :=
  (C1_files_processed_sorted_stably (demoEnv [fileA, fileB]) demoConfig [] demoSpec).2.2.1
    2 (by rw [sync_stream_demoEnv, mergeSortAB]; rfl)

/-- C6: merging a decoded row with the three reserved provenance fields
resolves every field-name collision in favor of the reserved fields: for
any decoded row, including one that already binds a reserved name, the
merged record maps the reserved bucket, file and line-number fields to the
reserved values, and the merge is a total function (no error). -/
theorem C6_reserved_fields_overwrite (bucket s3_path : String) (n : Nat) (row : Row) :
    SDict.get (enrichRow bucket s3_path n row) SDC_SOURCE_BUCKET_COLUMN =
      some (JVal.s bucket)
    ∧ SDict.get (enrichRow bucket s3_path n row) SDC_SOURCE_FILE_COLUMN =
      some (JVal.s s3_path)
    ∧ SDict.get (enrichRow bucket s3_path n row) SDC_SOURCE_LINENO_COLUMN =
      some (JVal.i (Int.ofNat n + 2)) :=
  ⟨enrichRow_get_bucket bucket s3_path n row,
   enrichRow_get_fileKey bucket s3_path n row,
   enrichRow_get_lineno bucket s3_path n row⟩

/-- C2: after each successfully processed file the modified_since bookmark
holds that file's last_modified as an ISO string: on a successful table
sync the bookmark equals the last processed file's last_modified; and when
the Selector returns only files strictly newer than the current watermark,
the watermark whose ISO string is stored after a following sync is at
least the previous one — also when that sync lists no new files or itself
faults part-way. -/
theorem C2_watermark_last_file_and_monotone (env1 env2 : Env) (config : Config)
    (state0 : SState) (table_spec : TableSpec) :
    (∀ m f, (sync_stream env1 config state0 table_spec).result = Except.ok m →
      (sync_stream env1 config state0 table_spec).processed.getLast? = some f →
      get_bookmark (sync_stream env1 config state0 table_spec).finalState
        table_spec.table_name "modified_since" = some f.last_modified.isoformat)
    ∧ (∀ t1 : Timestamp,
      get_bookmark (sync_stream env1 config state0 table_spec).finalState
        table_spec.table_name "modified_since" = some t1.isoformat →
      (∀ f, f ∈ env2.get_input_files_for_table t1.isoformat →
        t1.ltb f.last_modified = true) →
      ∃ t2 : Timestamp,
        get_bookmark (sync_stream env2 config
            (sync_stream env1 config state0 table_spec).finalState table_spec).finalState
          table_spec.table_name "modified_since" = some t2.isoformat
        ∧ t1.leb t2 = true) := by
  have hss1 : sync_stream env1 config state0 table_spec =
      syncFiles env1 config table_spec
        ((inputFiles env1 config state0 table_spec).mergeSort fileLe) state0 0 := rfl
  constructor
  · intro m f hm hlast
    obtain ⟨hproc, htake⟩ := syncFiles_ok env1 config table_spec
      ((inputFiles env1 config state0 table_spec).mergeSort fileLe) state0 0 m hm
    rw [hss1, syncFiles_finalState, htake]
    rw [hss1, hproc] at hlast
    exact foldl_bookmark_getLast table_spec.table_name _ f state0 hlast
  · intro t1 hw hsel
    have hin2 : inputFiles env2 config
        (sync_stream env1 config state0 table_spec).finalState table_spec =
        env2.get_input_files_for_table t1.isoformat := by
      unfold inputFiles
      rw [hw]
      rfl
    have hunf : sync_stream env2 config
        (sync_stream env1 config state0 table_spec).finalState table_spec =
        syncFiles env2 config table_spec
          ((inputFiles env2 config
            (sync_stream env1 config state0 table_spec).finalState table_spec).mergeSort
            fileLe)
          (sync_stream env1 config state0 table_spec).finalState 0 := rfl
    have hss2 : sync_stream env2 config
        (sync_stream env1 config state0 table_spec).finalState table_spec =
        syncFiles env2 config table_spec
          ((env2.get_input_files_for_table t1.isoformat).mergeSort fileLe)
          (sync_stream env1 config state0 table_spec).finalState 0 := by
      rw [hunf, hin2]
    set sorted2 := (env2.get_input_files_for_table t1.isoformat).mergeSort fileLe with hs2
    set committed := sorted2.takeWhile (okf env2 config table_spec) with hcomm
    have hfs2 : (sync_stream env2 config
        (sync_stream env1 config state0 table_spec).finalState table_spec).finalState =
        List.foldl (bookmarkStep table_spec.table_name)
          (sync_stream env1 config state0 table_spec).finalState committed := by
      rw [hss2, syncFiles_finalState]
    cases hlast2 : committed.getLast? with
    | none =>
      have : committed = [] := List.getLast?_eq_none_iff.mp hlast2
      refine ⟨t1, ?_, Timestamp.leb_refl t1⟩
      rw [hfs2, this]
      exact hw
    | some f =>
      refine ⟨f.last_modified, ?_, ?_⟩
      · rw [hfs2]
        exact foldl_bookmark_getLast table_spec.table_name committed f _ hlast2
      · have hmem : f ∈ committed := List.mem_of_getLast?_eq_some hlast2
        have hmem2 : f ∈ sorted2 :=
          List.Sublist.mem hmem (List.takeWhile_sublist _)
        have hmem3 : f ∈ env2.get_input_files_for_table t1.isoformat :=
          List.mem_mergeSort.mp hmem2
        exact Timestamp.leb_of_ltb (hsel f hmem3)

/-- C2 witness: a concrete pair of runs — one file at epoch 100, then a
later listing with one strictly newer file — after which the stored
watermark is some timestamp at least epoch 100. -/
theorem C2_witness :
    ∃ t2 : Timestamp,
      get_bookmark (sync_stream (demoEnv [fileB]) demoConfig
          (sync_stream (demoEnv [fileA]) demoConfig [] demoSpec).finalState
          demoSpec).finalState
        demoSpec.table_name "modified_since" = some t2.isoformat
      ∧ tsA.leb t2 = true :=
  (C2_watermark_last_file_and_monotone (demoEnv [fileA]) (demoEnv [fileB])
      demoConfig [] demoSpec).2 tsA
    (by rw [sync_stream_demoEnv, List.mergeSort_singleton]; rfl)
    (by intro f hf
        have : f = fileB := List.mem_singleton.mp hf
        rw [this]
        decide)

/-- C3: a fault raised while streaming a file (storage-read on open,
mid-file decode, or transform) propagates out of the table sync: the run's
result is the first failing file's fault, the final state and the list of
persisted states reflect exactly the files that fully completed before the
failing one, and the message trace shows the completed files' records plus
only the records the failing file emitted before the fault. -/
theorem C3_fault_aborts_without_commit (env : Env) (config : Config)
    (state : SState) (table_spec : TableSpec) :
    ((inputFiles env config state table_spec).mergeSort fileLe).all
      (okf env config table_spec) = false →
    ∃ fbad e,
      ((inputFiles env config state table_spec).mergeSort fileLe).find?
        (fun f => not (okf env config table_spec f)) = some fbad
      ∧ fres env config table_spec fbad = Except.error e
      ∧ (sync_stream env config state table_spec).result = Except.error e
      ∧ (sync_stream env config state table_spec).finalState =
          List.foldl (bookmarkStep table_spec.table_name) state
            (((inputFiles env config state table_spec).mergeSort fileLe).takeWhile
              (okf env config table_spec))
      ∧ (sync_stream env config state table_spec).stateWrites =
          bookmarkTrail table_spec.table_name state
            (((inputFiles env config state table_spec).mergeSort fileLe).takeWhile
              (okf env config table_spec))
      ∧ (sync_stream env config state table_spec).messages =
          ((((inputFiles env config state table_spec).mergeSort fileLe).takeWhile
            (okf env config table_spec)).map (fmsgs env config table_spec)).flatten
            ++ fmsgs env config table_spec fbad := by
  intro hall
  obtain ⟨fbad, e, hfind, hres, hresult, hmsgs⟩ :=
    syncFiles_error env config table_spec
      ((inputFiles env config state table_spec).mergeSort fileLe) state 0 hall
  exact ⟨fbad, e, hfind, hres, hresult,
    syncFiles_finalState env config table_spec _ state 0,
    syncFiles_stateWrites env config table_spec _ state 0, hmsgs⟩

/-- C3 witness: a concrete run whose only file faults mid-file after one
emitted record; the fault propagates, no state is written, and the message
trace holds exactly the one record emitted before the fault. -/
theorem C3_witness :
    ∃ fbad e,
      ((inputFiles (demoFaultyEnv [fileA]) demoConfig [] demoSpec).mergeSort
        fileLe).find?
          (fun f => not (okf (demoFaultyEnv [fileA]) demoConfig demoSpec f)) = some fbad
      ∧ fres (demoFaultyEnv [fileA]) demoConfig demoSpec fbad = Except.error e
      ∧ (sync_stream (demoFaultyEnv [fileA]) demoConfig [] demoSpec).result =
          Except.error e
      ∧ (sync_stream (demoFaultyEnv [fileA]) demoConfig [] demoSpec).finalState =
          List.foldl (bookmarkStep demoSpec.table_name) []
            (((inputFiles (demoFaultyEnv [fileA]) demoConfig [] demoSpec).mergeSort
              fileLe).takeWhile (okf (demoFaultyEnv [fileA]) demoConfig demoSpec))
      ∧ (sync_stream (demoFaultyEnv [fileA]) demoConfig [] demoSpec).stateWrites =
          bookmarkTrail demoSpec.table_name []
            (((inputFiles (demoFaultyEnv [fileA]) demoConfig [] demoSpec).mergeSort
              fileLe).takeWhile (okf (demoFaultyEnv [fileA]) demoConfig demoSpec))
      ∧ (sync_stream (demoFaultyEnv [fileA]) demoConfig [] demoSpec).messages =
          ((((inputFiles (demoFaultyEnv [fileA]) demoConfig [] demoSpec).mergeSort
            fileLe).takeWhile (okf (demoFaultyEnv [fileA]) demoConfig demoSpec)).map
              (fmsgs (demoFaultyEnv [fileA]) demoConfig demoSpec)).flatten
            ++ fmsgs (demoFaultyEnv [fileA]) demoConfig demoSpec fbad :=
  C3_fault_aborts_without_commit (demoFaultyEnv [fileA]) demoConfig [] demoSpec
    (by show (([fileA] : List FileDescriptor).mergeSort fileLe).all _ = false
        rw [List.mergeSort_singleton]
        rfl)

/-- The record produced by the demonstration run over file a.csv: the
decoded row followed by the three reserved fields. -/
def demoRecA : Row :=
  [("a", JVal.s "a.csv"),
   (SDC_SOURCE_BUCKET_COLUMN, JVal.s "bkt"),
   (SDC_SOURCE_FILE_COLUMN, JVal.s "a.csv"),
   (SDC_SOURCE_LINENO_COLUMN, JVal.i 2)]

/-- The serialized message produced by the demonstration run over a.csv. -/
def demoMsgA : SDict JVal :=
  [("type", JVal.s "RECORD"), ("stream", JVal.s "tbl"),
   ("record", JVal.o demoRecA), ("sequence", JVal.i 100)]

/-- C4: every message emitted while syncing one file carries a sequence
equal to int(last_modified.timestamp()) of that file, independent of the
row's content — in particular all records from the same file share one
sequence value. -/
theorem C4_sequence_file_granular (env : Env) (config : Config) (s3_path : String)
    (table_spec : TableSpec) (lm : Timestamp) :
    ∀ m ∈ (sync_table_file env config s3_path table_spec lm).messages,
      SDict.get m "sequence" = some (JVal.i lm.timestampInt) := by
  intro m hm
  unfold sync_table_file at hm
  cases hh : env.get_file_handle s3_path with
  | error f =>
    rw [hh] at hm
    simp at hm
  | ok raw =>
    rw [hh] at hm
    obtain ⟨tw, htw⟩ := syncRows_messages env config.bucket s3_path
      table_spec.table_name lm _ 0 m hm
    rw [htw]
    exact get_sequence_asdict table_spec.table_name tw lm

/-- C4 witness: the one message of a concrete one-row run carries the
file's truncated epoch timestamp as its sequence. -/
theorem C4_witness :
    SDict.get demoMsgA "sequence" = some (JVal.i tsA.timestampInt) :=
  C4_sequence_file_granular (demoEnv [fileA]) demoConfig "a.csv" demoSpec tsA
    demoMsgA (by
      have h : (sync_table_file (demoEnv [fileA]) demoConfig "a.csv" demoSpec
          tsA).messages = [demoMsgA] := rfl
      rw [h]
      exact List.mem_singleton.mpr rfl)

/-- C5: the record built for the zero-based i-th data row of a file is
stamped with line number i + 2, so the Nth data row (1-based) gets line
number N + 1, the header counting as line 1; and that record is exactly
the i-th decoded row enriched with the reserved fields. -/
theorem C5_lineno_header_counted (env : Env) (config : Config) (s3_path : String)
    (table_spec : TableSpec) (lm : Timestamp) :
    (∀ i r,
      ((sync_table_file env config s3_path table_spec lm).transformInputs)[i]? = some r →
      SDict.get r SDC_SOURCE_LINENO_COLUMN = some (JVal.i (Int.ofNat i + 2)))
    ∧ (∀ (bucket tname : String) (rows : List Row) (i : Nat) (r : Row),
      ((syncRows env bucket s3_path tname lm rows 0).1)[i]? = some r →
      ∃ row, rows[i]? = some row ∧ r = enrichRow bucket s3_path i row) := by
  constructor
  · intro i r hr
    unfold sync_table_file at hr
    cases hh : env.get_file_handle s3_path with
    | error f =>
      rw [hh] at hr
      simp at hr
    | ok raw =>
      rw [hh] at hr
      obtain ⟨row, hrow, henr⟩ := syncRows_inputs env config.bucket s3_path
        table_spec.table_name lm _ 0 i r hr
      rw [henr]
      simpa using enrichRow_get_lineno config.bucket s3_path (0 + i) row
  · intro bucket tname rows i r hr
    obtain ⟨row, hrow, henr⟩ := syncRows_inputs env bucket s3_path tname lm rows 0 i r hr
    exact ⟨row, hrow, by rw [henr, Nat.zero_add]⟩

/-- C5 witness: in the concrete one-row run the first data row is stamped
with line number 2. -/
theorem C5_witness :
    SDict.get demoRecA SDC_SOURCE_LINENO_COLUMN = some (JVal.i (Int.ofNat 0 + 2)) :=
  (C5_lineno_header_counted (demoEnv [fileA]) demoConfig "a.csv" demoSpec tsA).1
    0 demoRecA rfl

/-- C7: when the configuration names an encoding_module that cannot be
located, the file sync logs the fallback warning and behaves exactly as it
would with no override configured — same messages, same result — so
decoder-resolution failure is never fatal. -/
theorem C7_unknown_module_falls_back (env : Env) (config : Config)
    (name s3_path raw : String) (table_spec : TableSpec) (lm : Timestamp)
    (hname : config.encoding_module = some name)
    (hmiss : env.modules name = none)
    (hopen : env.get_file_handle s3_path = Except.ok raw) :
    (sync_table_file env config s3_path table_spec lm).result =
      (sync_table_file env { config with encoding_module := none }
        s3_path table_spec lm).result
    ∧ (sync_table_file env config s3_path table_spec lm).messages =
      (sync_table_file env { config with encoding_module := none }
        s3_path table_spec lm).messages
    ∧ (sync_table_file env config s3_path table_spec lm).warnings =
      ["Failed to load encoding module [" ++ name
        ++ "]. Defaulting to [singer_encodings.csv]"] := by
  unfold sync_table_file
  rw [hopen]
  simp [resolveEncodingModule, hname, hmiss]

/-- C7 witness: a concrete run with an unknown module completes with the
fallback warning logged. -/
theorem C7_witness :
    (sync_table_file (demoEnv [fileA]) demoConfigBadMod "a.csv" demoSpec tsA).result =
      (sync_table_file (demoEnv [fileA])
        { demoConfigBadMod with encoding_module := none } "a.csv" demoSpec tsA).result
    ∧ (sync_table_file (demoEnv [fileA]) demoConfigBadMod "a.csv" demoSpec tsA).messages =
      (sync_table_file (demoEnv [fileA])
        { demoConfigBadMod with encoding_module := none } "a.csv" demoSpec tsA).messages
    ∧ (sync_table_file (demoEnv [fileA]) demoConfigBadMod "a.csv" demoSpec tsA).warnings =
      ["Failed to load encoding module [" ++ "nope"
        ++ "]. Defaulting to [singer_encodings.csv]"] :=
  C7_unknown_module_falls_back (demoEnv [fileA]) demoConfigBadMod "nope" "a.csv"
    "a.csv" demoSpec tsA rfl rfl rfl

/-- C8 counterexample: in a concrete run the serialized message holds the
integer sequence as a top-level entry beside record, and the record object
contains no sequence field, refuting the claimed nesting of sequence
inside record. -/
theorem C8_counterexample :
    (sync_table_file (demoEnv [fileA]) demoConfig "a.csv" demoSpec tsA).messages =
      [demoMsgA]
    ∧ SDict.get demoMsgA "record" = some (JVal.o demoRecA)
    ∧ SDict.get demoRecA "sequence" = none
    ∧ SDict.get demoMsgA "sequence" = some (JVal.i 100)
    ∧ ¬ ∃ fields : Row,
        demoMsgA = [("type", JVal.s "RECORD"), ("stream", JVal.s "tbl"),
          ("record", JVal.o fields)] := by
  refine ⟨rfl, rfl, rfl, rfl, ?_⟩
  rintro ⟨fields, hf⟩
  have hlen := congrArg List.length hf
  simp [demoMsgA] at hlen

/-- C8 amended: every emitted message serializes to a dict of exactly
type RECORD, the stream name, the record object holding the transformed
fields, and the integer sequence as a top-level sibling of record (not
nested inside the record object). -/
theorem C8_amended_sequence_top_level (env : Env) (config : Config)
    (s3_path : String) (table_spec : TableSpec) (lm : Timestamp) :
    ∀ m ∈ (sync_table_file env config s3_path table_spec lm).messages,
      ∃ fields : Row,
        m = [("type", JVal.s "RECORD"), ("stream", JVal.s table_spec.table_name),
             ("record", JVal.o fields), ("sequence", JVal.i lm.timestampInt)] := by
  intro m hm
  unfold sync_table_file at hm
  cases hh : env.get_file_handle s3_path with
  | error f =>
    rw [hh] at hm
    simp at hm
  | ok raw =>
    rw [hh] at hm
    obtain ⟨tw, htw⟩ := syncRows_messages env config.bucket s3_path
      table_spec.table_name lm _ 0 m hm
    exact ⟨tw, htw.trans (asdict_make table_spec.table_name tw lm)⟩

/-- C8 amended witness: the concrete message has the four-entry top-level
shape with sequence beside record. -/
theorem C8_amended_witness :
    ∃ fields : Row,
      demoMsgA = [("type", JVal.s "RECORD"), ("stream", JVal.s demoSpec.table_name),
        ("record", JVal.o fields), ("sequence", JVal.i tsA.timestampInt)] :=
  C8_amended_sequence_top_level (demoEnv [fileA]) demoConfig "a.csv" demoSpec tsA
    demoMsgA (by
      have h : (sync_table_file (demoEnv [fileA]) demoConfig "a.csv" demoSpec
          tsA).messages = [demoMsgA] := rfl
      rw [h]
      exact List.mem_singleton.mpr rfl)

/-- C9 counterexample: with an encoding_module configured and two files
listed, the table sync performs one import lookup per file — two lookups
in a single table sync — refuting resolution exactly once per table sync. -/
theorem C9_counterexample :
    (sync_stream (demoEnv [fileA, fileB]) demoConfigBadMod [] demoSpec).lookups =
      ["nope", "nope"]
    ∧ (sync_stream (demoEnv [fileA, fileB]) demoConfigBadMod [] demoSpec).processed =
      [fileA, fileB]
    ∧ (sync_stream (demoEnv [fileA, fileB]) demoConfigBadMod [] demoSpec).lookups.length
      ≠ 1 := by
  have h : sync_stream (demoEnv [fileA, fileB]) demoConfigBadMod [] demoSpec =
      syncFiles (demoEnv [fileA, fileB]) demoConfigBadMod demoSpec [fileA, fileB] [] 0 := by
    rw [sync_stream_demoEnv, mergeSortAB]
  rw [h]
  exact ⟨rfl, rfl, by decide⟩

/-- C9 amended: the module named in configuration is resolved once per
file, not once per table sync: when every file handle opens, the lookup
trace holds exactly one lookup of the configured name for each file whose
processing started, performed before that file's rows are streamed. -/
theorem C9_amended_lookup_per_file (env : Env) (config : Config) (state : SState)
    (table_spec : TableSpec) (name : String)
    (hname : config.encoding_module = some name)
    (hopen : ∀ key, ∃ raw, env.get_file_handle key = Except.ok raw) :
    (sync_stream env config state table_spec).lookups =
      (sync_stream env config state table_spec).processed.map (fun _ => name) :=
  syncFiles_lookups env config table_spec name hname hopen
    ((inputFiles env config state table_spec).mergeSort fileLe) state 0

/-- C9 amended witness: the concrete two-file run performs one lookup per
processed file. -/
theorem C9_amended_witness :
    (sync_stream (demoEnv [fileA, fileB]) demoConfigBadMod [] demoSpec).lookups =
      (sync_stream (demoEnv [fileA, fileB]) demoConfigBadMod []
        demoSpec).processed.map (fun _ => "nope") :=
  C9_amended_lookup_per_file (demoEnv [fileA, fileB]) demoConfigBadMod [] demoSpec
    "nope" rfl (fun key => ⟨key, rfl⟩)

/-- C10: with an empty file listing the table sync emits no messages,
passes nothing to write_state, leaves the state object untouched and
returns record count 0; for every listing the final state can differ from
the initial one only at the synced table's modified_since bookmark; and
every state passed to write_state is the bookmark commit of a prefix of
fully completed files. -/
theorem C10_empty_listing_and_frame (env : Env) (config : Config) (state : SState)
    (table_spec : TableSpec) :
    (inputFiles env config state table_spec = [] →
      (sync_stream env config state table_spec).messages = []
      ∧ (sync_stream env config state table_spec).stateWrites = []
      ∧ (sync_stream env config state table_spec).finalState = state
      ∧ (sync_stream env config state table_spec).result = Except.ok 0)
    ∧ (∀ t' k', t' ≠ table_spec.table_name ∨ k' ≠ "modified_since" →
        get_bookmark (sync_stream env config state table_spec).finalState t' k' =
          get_bookmark state t' k')
    ∧ (sync_stream env config state table_spec).stateWrites =
        bookmarkTrail table_spec.table_name state
          (((inputFiles env config state table_spec).mergeSort fileLe).takeWhile
            (okf env config table_spec)) := by
  have hss : sync_stream env config state table_spec =
      syncFiles env config table_spec
        ((inputFiles env config state table_spec).mergeSort fileLe) state 0 := rfl
  refine ⟨?_, ?_, ?_⟩
  · intro hempty
    rw [hss, hempty, List.mergeSort_nil, syncFiles_nil]
    exact ⟨rfl, rfl, rfl, rfl⟩
  · intro t' k' hne
    rw [hss, syncFiles_finalState]
    exact foldl_bookmark_frame table_spec.table_name _ state t' k' hne
  · rw [hss]
    exact syncFiles_stateWrites env config table_spec _ state 0

/-- C10 witness: a concrete empty-listing run emits nothing, writes no
state, and returns count 0 with the state unchanged. -/
theorem C10_witness :
    (sync_stream (demoEnv []) demoConfig [] demoSpec).messages = []
    ∧ (sync_stream (demoEnv []) demoConfig [] demoSpec).stateWrites = []
    ∧ (sync_stream (demoEnv []) demoConfig [] demoSpec).finalState = []
    ∧ (sync_stream (demoEnv []) demoConfig [] demoSpec).result = Except.ok 0 :=
  (C10_empty_listing_and_frame (demoEnv []) demoConfig [] demoSpec).1 rfl

end TapS3Csv
